import Mathlib

/-
Verification of the fantasy-football dialogue engine against its
natural-language specification.  The definitions below are a shallow
embedding of the Python sources:
  backend/app/agents/langgraph_chat_agent.py  (engine, event stream)
  backend/app/api/agents.py                   (the /chat/stream endpoint)
  backend/app/tools/browser/browser_tools.py  (browser tools, registry)
  backend/app/tools/browser/playwright_manager.py (session pool)
  backend/app/agents/state.py                 (state schema)
External runtime behaviour the sources rely on (the LangGraph executor,
its ToolNode boundary, and the add_messages reducer) is embedded
explicitly where a claim depends on it, and each such definition says so
in its doc comment.
-/

namespace FFAgent

/-- Event type tags appearing in the dicts yielded by
`LangGraphChatAgent.chat_stream` and by the `/chat/stream` endpoint
generator (`status`, `response`, `error`, `metadata`, `done`). -/
inductive EventType
  | status
  | response
  | error
  | metadata
  | done
deriving DecidableEq

/-- One caller-visible event: the `type` tag together with its message
payload (other payload fields are irrelevant to the claims). -/
structure Event where
  type : EventType
  message : String
deriving DecidableEq

/-- Terminal event types per the spec: `response` (terminal success) and
`error` (terminal failure). -/
def EventType.isTerminal : EventType → Bool
  | .response => true
  | .error => true
  | _ => false

/-- One message held in the graph state, as `chat_stream` inspects it:
its text content and the names of the tool calls attached to it. -/
structure PyMsg where
  content : String
  toolCalls : List String
deriving DecidableEq

/-- One update dict yielded by `graph.astream`, i.e. one node state as
`chat_stream` inspects it: `statusMessage` is `node_state["status_message"]`
when the key is present (`some ""` models a present but falsy value),
`hasMessagesKey` whether the dict has a `messages` key, `messages` its
value. -/
structure NodeUpdate where
  statusMessage : Option String
  hasMessagesKey : Bool
  messages : List PyMsg
deriving DecidableEq

/-- Events yielded for `node_state["status_message"]`: a `status` event
when the key is present and truthy (chat_stream lines 441-442). -/
def truthyStatus (s : Option String) : List Event :=
  match s with
  | some s => if s = "" then [] else [⟨.status, s⟩]
  | none => []

/-- Events yielded for tool calls on the last message of a node update:
a `status` event naming the tools when the last message carries tool
calls (chat_stream lines 445-449). -/
def toolStatusEvents (u : NodeUpdate) : List Event :=
  if u.hasMessagesKey then
    match u.messages.getLast? with
    | some m =>
        if m.toolCalls.isEmpty then []
        else [⟨.status, "Using tools: " ++ String.intercalate ", " m.toolCalls ++ "..."⟩]
    | none => []
  else []

/-- All events yielded while processing one `astream` update
(chat_stream lines 439-451). -/
def statusEventsOf (u : NodeUpdate) : List Event :=
  truthyStatus u.statusMessage ++ toolStatusEvents u

/-- Fallback response text of chat_stream line 464. -/
def apologyText : String := "I apologize, but I couldn\x27t generate a response."

/-- Event yielded after the `astream` loop completes normally
(chat_stream lines 453-464): the content of the last message of the last
node state as a `response` event; the apology when no update carried a
`messages` key; indexing an empty message list raises IndexError, which
the enclosing `except` turns into an `error` event. -/
def finalEvent (updates : List NodeUpdate) : Event :=
  match updates.getLast? with
  | none => ⟨.response, apologyText⟩
  | some u =>
      if u.hasMessagesKey then
        match u.messages.getLast? with
        | some m => ⟨.response, m.content⟩
        | none => ⟨.error, "Error: list index out of range"⟩
      else ⟨.response, apologyText⟩

/-- Outcome of iterating `graph.astream`: it either finishes normally or
raises after some prefix of updates has been processed. -/
inductive RunOutcome
  | ok
  | exn (msg : String)
deriving DecidableEq

/-- One run of the compiled graph as observed by `chat_stream`: the
updates it processed, and whether iteration ended normally or raised. -/
structure GraphRun where
  updates : List NodeUpdate
  outcome : RunOutcome
deriving DecidableEq

/-- The single event ending the stream of an initialized agent: the
final `response` on normal completion, or the `error` event synthesized
by the `except` clause (chat_stream lines 466-468). -/
def terminalEvent (run : GraphRun) : Event :=
  match run.outcome with
  | .ok => finalEvent run.updates
  | .exn m => ⟨.error, "Error: " ++ m⟩

/-- Shallow embedding of `LangGraphChatAgent.chat_stream`
(langgraph_chat_agent.py lines 352-468) as the list of events it yields:
an `error` event when the agent is not initialized; otherwise the
leading "Fetching your roster data..." status, the status events of each
processed update, and exactly one closing terminal event. -/
def chat_stream (isInit : Bool) (run : GraphRun) : List Event :=
  if isInit then
    (⟨.status, "Fetching your roster data..."⟩ :: (run.updates.map statusEventsOf).flatten)
      ++ [terminalEvent run]
  else [⟨.error, "Agent not initialized"⟩]

/-- Outcome of the persistence calls made by the endpoint generator:
they succeed, raise before the metadata event (conversation lookup /
user-message save), or raise after the agent events were forwarded
(assistant-message save). -/
inductive PersistOutcome
  | ok
  | failBefore (msg : String)
  | failAfter (msg : String)
deriving DecidableEq

/-- Shallow embedding of `generate_stream` inside the `/chat/stream`
endpoint (api/agents.py lines 151-242): a `metadata` event, the
forwarded agent events, then a `done` event; any exception is caught and
yields a final `error` event. -/
def generate_stream (p : PersistOutcome) (agentEvents : List Event) : List Event :=
  match p with
  | .failBefore m => [⟨.error, m⟩]
  | .failAfter m => ⟨.metadata, ""⟩ :: agentEvents ++ [⟨.error, m⟩]
  | .ok => ⟨.metadata, ""⟩ :: agentEvents ++ [⟨.done, ""⟩]

/-- The events strictly after the first terminal event of a stream
(empty when no terminal event occurs). -/
def afterFirstTerminal : List Event → List Event
  | [] => []
  | e :: rest => if e.type.isTerminal then rest else afterFirstTerminal rest

/-- Concrete graph run used to evaluate the claims: the context node
reports its status, then the agent answers directly with no tool calls
(spec Scenario A). -/
def run0 : GraphRun :=
  { updates :=
      [ { statusMessage := some "Context loaded", hasMessagesKey := false, messages := [] },
        { statusMessage := some "Agent responded", hasMessagesKey := true,
          messages := [⟨"Your lineup looks good.", []⟩] } ],
    outcome := .ok }

/-- Nodes of the graph wired in `LangGraphChatAgent._build_graph`
(langgraph_chat_agent.py lines 83-114). -/
inductive Node
  | fetch_context
  | agent
  | tools
deriving DecidableEq

/-- Embedding of `LangGraphChatAgent._should_continue` (lines 180-191):
the branch key returned for the conditional edge out of `agent`, decided
by whether the last message carries tool calls. -/
def should_continue (lastToolCalls : List String) : String :=
  if ¬ lastToolCalls.isEmpty then "continue" else "end"

/-- The edges of `_build_graph`: entry point `fetch_context`; an
unconditional edge `fetch_context → agent`; the conditional edge
`agent → tools` when `_should_continue` returns "continue" and `agent →
END` (`none`) otherwise; an unconditional edge `tools → agent`. -/
def nextNode (n : Node) (lastToolCalls : List String) : Option Node :=
  match n with
  | .fetch_context => some .agent
  | .agent => if should_continue lastToolCalls = "continue" then some .tools else none
  | .tools => some .agent

/-- Execution loop of the compiled graph.  This embeds the LangGraph
runtime that `_build_graph`'s compiled graph runs on: nodes execute one
superstep at a time along `nextNode`, and the runtime stops with a
GraphRecursionError once the configured `recursion_limit` supersteps
(default 25; `chat_stream` passes no override in its config) are spent
without reaching END.  `model k` gives the tool-call names the model
attaches to its response on its k-th invocation; the result is the
number of model invocations performed, paired with `true` for normal END
and `false` for a GraphRecursionError. -/
def runFrom (model : Nat → List String) : Nat → Node → Nat → Nat × Bool
  | 0, _, calls => (calls, false)
  | fuel + 1, .fetch_context, calls => runFrom model fuel .agent calls
  | fuel + 1, .agent, calls =>
      match nextNode .agent (model calls) with
      | some n => runFrom model fuel n (calls + 1)
      | none => (calls + 1, true)
  | fuel + 1, .tools, calls => runFrom model fuel .agent calls

/-- One graph run from the entry point with the given recursion limit. -/
def runGraph (model : Nat → List String) (recursionLimit : Nat) : Nat × Bool :=
  runFrom model recursionLimit .fetch_context 0

/-- Substring test on character lists, embedding the Python expression
`domain in url` used by `open_page` (browser_tools.py line 64). -/
def isSubstr (needle : List Char) : List Char → Bool
  | [] => needle.isEmpty
  | c :: rest => needle.isPrefixOf (c :: rest) || isSubstr needle rest

/-- The domain allow-list configured in `PlaywrightManager.__init__`
(playwright_manager.py lines 84-89). -/
def allowed_domains : List String :=
  ["sleeper.app", "sleeper.com", "accounts.google.com", "accounts.google.co.uk"]

/-- The allow-list check performed by `open_page` (line 64):
`any(domain in url for domain in playwright_manager.allowed_domains)`,
i.e. some allowed domain occurs as a substring anywhere in the URL. -/
def urlAllowed (url : String) : Bool :=
  allowed_domains.any (fun d => isSubstr d.toList url.toList)

/-- The browser page state a navigation tool acts on: the URL the page
is currently at. -/
structure PageState where
  currentUrl : String
deriving DecidableEq

/-- Uniform result envelope the browser tools return: the `success`
flag and the optional `error` string of the returned dict. -/
structure ToolResult where
  success : Bool
  error : Option String
deriving DecidableEq

/-- Shallow embedding of the `open_page` tool (browser_tools.py lines
45-88): when the allow-list check fails it returns an error result and
does not touch the page; otherwise it performs `page.goto(url)` and
returns success. -/
def open_page (url : String) (page : PageState) : ToolResult × PageState :=
  if urlAllowed url then
    ({ success := true, error := none }, { currentUrl := url })
  else
    ({ success := false,
       error := some ("URL not in allowed domains: " ++ String.intercalate ", " allowed_domains) },
     page)

/-- Shallow embedding of the `navigate_to_lineup` tool (browser_tools.py
lines 502-542): it builds the league URL and navigates to it with no
allow-list check of its own. -/
def navigate_to_lineup (league_id : String) (week : Nat) (_page : PageState) :
    ToolResult × PageState :=
  let url := "https://sleeper.com/leagues/" ++ league_id ++ "/" ++ toString week
  ({ success := true, error := none }, { currentUrl := url })

/-- Helper for extracting the spec-level destination domain of a URL:
drops everything up to and including the first occurrence of `sep`. -/
def dropThrough (sep : List Char) : List Char → List Char
  | [] => []
  | c :: rest =>
      if sep.isPrefixOf (c :: rest) then (c :: rest).drop sep.length
      else dropThrough sep rest

/-- Modelled from the spec side of the claim (not from a source
function): the destination domain of a URL, i.e. the authority component
between the `://` of the scheme and the first `/`, `?`, `#` or `:` that
follows, per generic URL syntax.  This is the notion the spec quantifies
over in "every URL whose domain is not on the allow-list". -/
def urlHost (url : String) : String :=
  String.mk ((dropThrough [':', '/', '/'] url.toList).takeWhile
    (fun c => c ≠ '/' && c ≠ '?' && c ≠ '#' && c ≠ ':'))

/-- Exceptions a Playwright page interaction can raise into a browser
tool handler: the timeout error, or any other exception carrying a
message (`str(e)`). -/
inductive PwExn
  | timeoutError
  | other (msg : String)
deriving DecidableEq

/-- Shallow embedding of the `click_element` tool (browser_tools.py
lines 91-136).  The input is the outcome of the page interaction the
handler body performs; the `except` clauses convert a raised
PlaywrightTimeoutError or any other exception into an error-status
result dict, so the handler always returns a `ToolResult` and never
lets the exception escape. -/
def click_element (selector : String) (timeout_ms : Int) (page : Except PwExn Unit) :
    ToolResult :=
  match page with
  | .ok _ => { success := true, error := none }
  | .error .timeoutError =>
      { success := false,
        error := some ("Element not found within " ++ toString timeout_ms ++ "ms: " ++ selector) }
  | .error (.other m) => { success := false, error := some m }

/-- One tool invocation requested by an assistant message: the call id
and the tool name. -/
structure ToolCallReq where
  id : String
  name : String
deriving DecidableEq

/-- One `tool` message produced by the dispatcher and appended to the
message log: the id it answers, its content, and the error flag. -/
structure ToolMessage where
  toolCallId : String
  content : String
  isError : Bool
deriving DecidableEq

/-- Dispatch of a single requested invocation at the ToolNode boundary.
This embeds the LangGraph ToolNode the graph uses for its "tools" node
(`ToolNode(ALL_TOOLS)` in `_build_graph`, default handle_tool_errors):
a handler that returns yields a content message, and a handler that
raises is caught at the node boundary and converted into an error
message for the same call id. -/
def dispatchOne (req : ToolCallReq) (outcome : Except String String) : ToolMessage :=
  match outcome with
  | .ok content => { toolCallId := req.id, content := content, isError := false }
  | .error m =>
      { toolCallId := req.id,
        content := "Error: " ++ m ++ " Please fix your mistakes.",
        isError := true }

/-- The ToolNode executes every requested invocation and returns one
tool message per request, in request order; `outcomes` gives each
handler run's outcome by call id. -/
def toolNode (reqs : List ToolCallReq) (outcomes : String → Except String String) :
    List ToolMessage :=
  reqs.map (fun r => dispatchOne r (outcomes r.id))

/-- One roster dict as `_fetch_context_node` inspects it: its
`roster_id` key and the rest of its payload, kept abstract. -/
structure Roster where
  roster_id : Int
  payload : String
deriving DecidableEq

/-- The state keys `_fetch_context_node` returns
(langgraph_chat_agent.py lines 134-145): `none` models the empty dict
substituted for missing data. -/
structure CtxUpdate where
  roster_data : Option Roster
  players_data : Option (List (String × String))
  status_message : String
deriving DecidableEq

/-- Shallow embedding of `LangGraphChatAgent._fetch_context_node`
(lines 116-145).  The input is the outcome of the two sleeper_client
fetches: an exception, or the (possibly null) roster list and player
map.  On success it selects the caller's roster from the list; on any
exception it substitutes empty roster and player data and reports the
"Error loading context" status. -/
def fetch_context_node (rosterId : Int)
    (fetched : Except String (Option (List Roster) × Option (List (String × String)))) :
    CtxUpdate :=
  match fetched with
  | .ok (rosterData, playersData) =>
      let userRoster := (rosterData.getD []).find? (fun r => r.roster_id = rosterId)
      { roster_data := userRoster,
        players_data := some (playersData.getD []),
        status_message := "Context loaded" }
  | .error _ =>
      { roster_data := none,
        players_data := none,
        status_message := "Error loading context" }

/-- The `astream` update produced by the `fetch_context` node: its
returned dict carries a status message and no `messages` key. -/
def ctxNodeUpdate (c : CtxUpdate) : NodeUpdate :=
  { statusMessage := some c.status_message, hasMessagesKey := false, messages := [] }

/-- Message roles occurring in the checkpointed message log. -/
inductive Role
  | user
  | assistant
  | tool
deriving DecidableEq

/-- One LangChain message as stored in the `messages` channel: its
id, role and content. -/
structure BMsg where
  id : String
  role : Role
  content : String
deriving DecidableEq

/-- One merge step of the `add_messages` reducer declared on
`ChatAgentState.messages` (state.py line 14).  This embeds the LangChain
reducer the channel uses: an incoming message whose id matches an
existing one replaces that entry in place; otherwise it is appended. -/
def addOne (acc : List BMsg) (m : BMsg) : List BMsg :=
  if acc.any (fun x => x.id = m.id) then
    acc.map (fun x => if x.id = m.id then m else x)
  else acc ++ [m]

/-- The `add_messages` reducer applied to a batch of incoming messages
(ids are assigned before the merge, so every message here carries one). -/
def add_messages (left right : List BMsg) : List BMsg :=
  right.foldl addOne left

/-- The input state built by `chat_stream` (lines 398-429): when a
checkpoint for the thread exists its message list is loaded and the new
user message is appended to it; otherwise a fresh state holding just the
user message is created. -/
def initialInput (checkpoint : Option (List BMsg)) (userMsg : BMsg) : List BMsg :=
  match checkpoint with
  | some msgs => msgs ++ [userMsg]
  | none => [userMsg]

/-- The `messages` channel after the graph applies the `add_messages`
reducer to the submitted input state on top of the checkpointed value. -/
def channelAfterInput (checkpoint : Option (List BMsg)) (userMsg : BMsg) : List BMsg :=
  add_messages (checkpoint.getD []) (initialInput checkpoint userMsg)

/-- One pooled browser session as `PlaywrightManager` tracks it
(playwright_manager.py lines 17-41): its id, the `last_activity`
timestamp, and the `is_active` flag.  Timestamps are integers (e.g.
seconds); `datetime.now()` is passed in explicitly as `now`. -/
structure MSession where
  session_id : String
  lastActivity : Int
  isActive : Bool
deriving DecidableEq

/-- The manager's mutable state: the `sessions` dict (association list
with unique ids) and its single `_lock` (playwright_manager.py lines
74-75), which `start` and `stop` acquire but `get_session` never
touches. -/
structure ManagerState where
  sessions : List MSession
  lockHeld : Bool
deriving DecidableEq

/-- Shallow embedding of `PlaywrightManager.get_session` (lines
218-224): look the id up in the dict; when found and active, refresh its
`last_activity` to `now` and return it; otherwise return `None`.  The
function performs no locking. -/
def get_session (st : ManagerState) (sid : String) (now : Int) :
    Option MSession × ManagerState :=
  match st.sessions.find? (fun s => s.session_id = sid) with
  | some s =>
      if s.isActive then
        let touched := fun (x : MSession) =>
          if x.session_id = sid then { x with lastActivity := now } else x
        (some { s with lastActivity := now }, { st with sessions := st.sessions.map touched })
      else (none, st)
  | none => (none, st)

/-- Embedding of `BrowserSession.is_expired` (lines 39-41): the session
is expired when `now - last_activity` strictly exceeds the timeout. -/
def is_expired (s : MSession) (now timeout : Int) : Bool :=
  now - s.lastActivity > timeout

/-- Embedding of `PlaywrightManager.close_session` (lines 226-232)
restricted to its effect on the pool: the entry with the given id is
closed and deleted from the dict. -/
def close_session (sessions : List MSession) (sid : String) : List MSession :=
  sessions.filter (fun s => ¬ s.session_id = sid)

/-- Shallow embedding of `PlaywrightManager.cleanup_expired_sessions`
(lines 234-245): collect the ids of all expired sessions, close each of
them, and return the resulting pool together with the number closed. -/
def cleanup_expired_sessions (sessions : List MSession) (now timeout : Int) :
    List MSession × Nat :=
  let expired := (sessions.filter (fun s => is_expired s now timeout)).map
    (fun s => s.session_id)
  (expired.foldl close_session sessions, expired.length)

/-- The two tool calls concurrently dispatched against the same
session. -/
inductive Caller
  | A
  | B
deriving DecidableEq

/-- The three phases of one in-session borrow/release cycle: borrow the
session via `get_session`, perform the in-session operation, release the
reference (the handler simply stops using it; the code has no release
primitive and no lock to give back). -/
inductive Action
  | borrow
  | work
  | release
deriving DecidableEq

/-- One scheduled step: which caller performs which phase. -/
structure TStep where
  caller : Caller
  act : Action
deriving DecidableEq

/-- The phase sequence each dispatched tool call runs through. -/
def cycleProgram : List Action := [.borrow, .work, .release]

/-- The phases a trace assigns to one caller, in trace order. -/
def projTrace (c : Caller) (tr : List TStep) : List Action :=
  (tr.filter (fun s => s.caller = c)).map (fun s => s.act)

/-- A trace is a schedule of the two callers when each caller's steps,
in order, are exactly one borrow/work/release cycle. -/
def isSchedule (tr : List TStep) : Bool :=
  projTrace .A tr = cycleProgram && projTrace .B tr = cycleProgram

/-- Executing one scheduled step against the manager: a borrow runs
`get_session` and is enabled exactly when it returns a session (the
code imposes no other condition - in particular no lock is taken); work
and release do not touch the manager state. -/
def execStep (sid : String) (now : Int) (st : ManagerState) (s : TStep) :
    Option ManagerState :=
  match s.act with
  | .borrow =>
      match get_session st sid now with
      | (some _, st2) => some st2
      | (none, _) => none
  | .work => some st
  | .release => some st

/-- Executing a whole trace; `none` when some step is not enabled. -/
def execTrace (sid : String) (now : Int) (st : ManagerState) : List TStep → Option ManagerState
  | [] => some st
  | s :: rest =>
      match execStep sid now st s with
      | some st2 => execTrace sid now st2 rest
      | none => none

/-- Whether the two borrow/release cycles of a trace overlap in time:
each caller borrows and releases, and caller A's borrow precedes B's
release while B's borrow precedes A's release. -/
def cyclesOverlap (tr : List TStep) : Bool :=
  match tr.findIdx? (fun s => s.caller = .A && s.act = .borrow),
        tr.findIdx? (fun s => s.caller = .A && s.act = .release),
        tr.findIdx? (fun s => s.caller = .B && s.act = .borrow),
        tr.findIdx? (fun s => s.caller = .B && s.act = .release) with
  | some ab, some ar, some bb, some br => ab < br && bb < ar
  | _, _, _, _ => false

/-- The interleaving in which both callers borrow the session before
either releases it. -/
def overlapTrace : List TStep :=
  [⟨.A, .borrow⟩, ⟨.B, .borrow⟩, ⟨.A, .work⟩, ⟨.B, .work⟩, ⟨.A, .release⟩, ⟨.B, .release⟩]

/-- A manager holding one active session and a free lock. -/
def mgr0 : ManagerState :=
  { sessions := [{ session_id := "s1", lastActivity := 0, isActive := true }],
    lockHeld := false }

/-- The names bound by a def at the top level of
browser_tools.py (the module's defined tool handlers and helpers). -/
def browser_tools_defined : List String :=
  ["set_browser_context", "_get_current_session", "open_page", "click_element",
   "type_text", "press_key", "wait_for_element", "take_screenshot", "sleep_ms",
   "open_sleeper_browser", "navigate_to_lineup"]

/-- The names the `BROWSER_TOOLS` registry list evaluates
(browser_tools.py lines 546-556). -/
def BROWSER_TOOLS_names : List String :=
  ["open_page", "click_element", "type_text", "press_key", "wait_for_element",
   "take_screenshot", "sleep_ms", "sleeper_login", "navigate_to_lineup"]

/-- The names the browser package imports from browser_tools and
re-exports (`__init__.py` lines 5-27). -/
def browser_init_all : List String :=
  ["open_page", "click_element", "type_text", "press_key", "wait_for_element",
   "take_screenshot", "sleep_ms", "sleeper_login", "navigate_to_lineup"]

/-- Every event produced while processing an `astream` update is a
`status` event. -/
theorem statusEventsOf_status (u : NodeUpdate) :
    ∀ e ∈ statusEventsOf u, e.type = EventType.status := by
  intro e he
  simp only [statusEventsOf, List.mem_append] at he
  rcases he with h | h
  · unfold truthyStatus at h
    split at h
    · split at h
      · simp at h
      · simp at h
        subst h
        rfl
    · simp at h
  · unfold toolStatusEvents at h
    split at h
    · split at h
      · split at h
        · simp at h
        · simp at h
          subst h
          rfl
      · simp at h
    · simp at h

/-- No terminal event occurs among the status events of the update
loop. -/
theorem statusEvents_no_terminal (us : List NodeUpdate) :
    ((us.map statusEventsOf).flatten).countP (fun e => e.type.isTerminal) = 0 := by
  rw [List.countP_eq_zero]
  intro e he
  rw [List.mem_flatten] at he
  obtain ⟨l, hl, hel⟩ := he
  rw [List.mem_map] at hl
  obtain ⟨u, _, rfl⟩ := hl
  rw [statusEventsOf_status u e hel]
  simp [EventType.isTerminal]

/-- The event ending a normal run is terminal. -/
theorem finalEvent_isTerminal (us : List NodeUpdate) :
    (finalEvent us).type.isTerminal = true := by
  unfold finalEvent
  split
  · rfl
  · split
    · split
      · rfl
      · rfl
    · rfl

/-- The event closing any run is terminal. -/
theorem terminalEvent_isTerminal (run : GraphRun) :
    (terminalEvent run).type.isTerminal = true := by
  unfold terminalEvent
  split
  · exact finalEvent_isTerminal _
  · rfl

/-- Core property of the embedded `chat_stream` event list: exactly one
terminal event, and it is the last event of the stream. -/
theorem chat_stream_terminal_spec (isInit : Bool) (run : GraphRun) :
    (chat_stream isInit run).countP (fun e => e.type.isTerminal) = 1
    ∧ ∃ e, (chat_stream isInit run).getLast? = some e ∧ e.type.isTerminal = true := by
  cases isInit with
  | false =>
      refine ⟨by simp [chat_stream, List.countP_cons, EventType.isTerminal], ?_⟩
      exact ⟨⟨.error, "Agent not initialized"⟩, by simp [chat_stream], rfl⟩
  | true =>
      constructor
      · show (((⟨.status, "Fetching your roster data..."⟩ : Event) ::
            (run.updates.map statusEventsOf).flatten) ++ [terminalEvent run]).countP
            (fun e => e.type.isTerminal) = 1
        rw [List.countP_append, List.countP_cons]
        rw [statusEvents_no_terminal]
        simp [List.countP_cons, terminalEvent_isTerminal run,
          show EventType.status.isTerminal = false from rfl]
      · refine ⟨terminalEvent run, ?_, terminalEvent_isTerminal run⟩
        show (((⟨.status, "Fetching your roster data..."⟩ : Event) ::
            (run.updates.map statusEventsOf).flatten) ++ [terminalEvent run]).getLast?
            = some (terminalEvent run)
        exact List.getLast?_concat _

/-- C1 (amended): `chat_stream` itself delivers exactly one terminal
event per turn - a `response` on normal completion or an `error`
otherwise, never both and never neither - and that terminal event is the
last event of its stream, so no event of any type follows it within
`chat_stream`.  (The `/chat/stream` endpoint that wraps it then emits a
further `done` event after the terminal event, which is what the
counterexample exhibits.) -/
theorem C1_single_terminal_event (isInit : Bool) (run : GraphRun) :
    (chat_stream isInit run).countP (fun e => e.type.isTerminal) = 1
    ∧ ∃ e, (chat_stream isInit run).getLast? = some e ∧ e.type.isTerminal = true :=
  chat_stream_terminal_spec isInit run

/-- C1 (counterexample to the claim as stated): on a concrete turn in
which the agent answers directly (spec Scenario A), the `/chat/stream`
endpoint emits a `done` event after the terminal `response` event, so it
is not the case that no event of any type is emitted for the turn after
the terminal event. -/
theorem C1_done_event_after_terminal :
    (chat_stream true run0).getLast? = some ⟨.response, "Your lineup looks good."⟩
    ∧ afterFirstTerminal (generate_stream .ok (chat_stream true run0)) = [⟨.done, ""⟩]
    ∧ afterFirstTerminal (generate_stream .ok (chat_stream true run0)) ≠ [] := by
  exact ⟨rfl, rfl, by decide⟩

/-- With the model forever requesting tools, the graph run never reaches
END and makes at most `calls + fuel` model invocations before the
recursion limit trips. -/
theorem runFrom_always_tools (model : Nat → List String) (h : ∀ k, model k ≠ []) :
    ∀ fuel (n : Node) (calls : Nat),
      (runFrom model fuel n calls).2 = false
      ∧ (runFrom model fuel n calls).1 ≤ calls + fuel := by
  intro fuel
  induction fuel with
  | zero =>
      intro n calls
      exact ⟨rfl, Nat.le_refl _⟩
  | succ f ih =>
      intro n calls
      cases n with
      | fetch_context =>
          have := ih .agent calls
          exact ⟨this.1, le_trans this.2 (by omega)⟩
      | agent =>
          have hne : (model calls).isEmpty = false := by
            simpa [List.isEmpty_iff] using h calls
          have hstep : runFrom model (f + 1) .agent calls
              = runFrom model f .tools (calls + 1) := by
            simp [runFrom, nextNode, should_continue, hne]
          rw [hstep]
          have := ih .tools (calls + 1)
          exact ⟨this.1, le_trans this.2 (by omega)⟩
      | tools =>
          have := ih .agent calls
          exact ⟨this.1, le_trans this.2 (by omega)⟩

/-- C2: with the default recursion limit of 25 supersteps (LangGraph's
default; `chat_stream` passes no override), a model that attaches a tool
call to every response drives the graph into the agent-tools loop until
the limit trips: the run terminates (fuel-bounded recursion) with a
GraphRecursionError after at most 25 model invocations instead of
looping forever, and `chat_stream` converts the raised error into
exactly one terminal `error` event closing the stream. -/
theorem C2_turn_limit_bounds_model_calls (model : Nat → List String)
    (h : ∀ k, model k ≠ []) :
    (runGraph model 25).2 = false
    ∧ (runGraph model 25).1 ≤ 25
    ∧ ∀ (us : List NodeUpdate) (m : String),
        (chat_stream true ⟨us, RunOutcome.exn m⟩).countP (fun e => e.type.isTerminal) = 1
        ∧ (chat_stream true ⟨us, RunOutcome.exn m⟩).getLast?
            = some ⟨EventType.error, "Error: " ++ m⟩ := by
  refine ⟨(runFrom_always_tools model h 25 .fetch_context 0).1,
    by simpa using (runFrom_always_tools model h 25 .fetch_context 0).2, ?_⟩
  intro us m
  refine ⟨(chat_stream_terminal_spec true ⟨us, RunOutcome.exn m⟩).1, ?_⟩
  show (((⟨.status, "Fetching your roster data..."⟩ : Event) ::
      (us.map statusEventsOf).flatten) ++ [terminalEvent ⟨us, RunOutcome.exn m⟩]).getLast?
      = some ⟨EventType.error, "Error: " ++ m⟩
  exact List.getLast?_concat _

/-- C2 witness: a model that always requests the no-op `sleep_ms` tool. -/
theorem C2_turn_limit_witness :
    (runGraph (fun _ => ["sleep_ms"]) 25).2 = false
    ∧ (runGraph (fun _ => ["sleep_ms"]) 25).1 ≤ 25
    ∧ ∀ (us : List NodeUpdate) (m : String),
        (chat_stream true ⟨us, RunOutcome.exn m⟩).countP (fun e => e.type.isTerminal) = 1
        ∧ (chat_stream true ⟨us, RunOutcome.exn m⟩).getLast?
            = some ⟨EventType.error, "Error: " ++ m⟩ :=
  C2_turn_limit_bounds_model_calls (fun _ => ["sleep_ms"]) (fun _ => List.cons_ne_nil _ _)

/-- Correctness of the substring test: it decides the infix relation. -/
theorem isSubstr_iff (n : List Char) : ∀ h : List Char, isSubstr n h = true ↔ n <:+: h := by
  intro h
  induction h with
  | nil => simp [isSubstr, List.isEmpty_iff]
  | cons c rest ih =>
      simp [isSubstr, List.isPrefixOf_iff_prefix, ih, List.infix_cons_iff]

/-- C3 (counterexample to the claim as stated): the URL
`https://evil.example.com/?ref=sleeper.com` has destination domain
`evil.example.com`, which is not on the allow-list (it neither equals
nor is a subdomain of any allowed domain); yet because `open_page`
checks the allow-list with a substring test over the whole URL, the
`sleeper.com` occurrence in the query string passes the check and the
tool navigates the page to the URL with a success result instead of
returning an error and performing no navigation. -/
theorem C3_allowlist_substring_bypass :
    urlHost "https://evil.example.com/?ref=sleeper.com" = "evil.example.com"
    ∧ allowed_domains.all
        (fun d => ("evil.example.com" != d)
          && !(("." ++ d).toList.isSuffixOf "evil.example.com".toList)) = true
    ∧ (open_page "https://evil.example.com/?ref=sleeper.com" ⟨"about:blank"⟩).1.success = true
    ∧ (open_page "https://evil.example.com/?ref=sleeper.com" ⟨"about:blank"⟩).2.currentUrl
        = "https://evil.example.com/?ref=sleeper.com" := by
  exact ⟨rfl, rfl, rfl, rfl⟩

/-- C3 (amended): `open_page` rejects exactly the URLs in which no
allowed domain occurs as a substring: for every such URL it returns a
success=false result whose error message names the allowed domains (the
result carries no PolicyViolation kind, only this message) and performs
no navigation on the page.  A URL whose destination domain is not
allowed but which contains an allowed domain elsewhere (path, query)
passes the check and is navigated to, and `navigate_to_lineup` performs
no allow-list check of its own (its URL is built on the fixed
sleeper.com host). -/
theorem C3_no_substring_means_rejected (url : String) (page : PageState)
    (h : ∀ d ∈ allowed_domains, ¬ (d.toList <:+: url.toList)) :
    (open_page url page).1.success = false
    ∧ (open_page url page).1.error
        = some ("URL not in allowed domains: " ++ String.intercalate ", " allowed_domains)
    ∧ (open_page url page).2 = page := by
  have hb : urlAllowed url = false := by
    rw [urlAllowed, List.any_eq_false]
    intro d hd
    have hs : isSubstr d.toList url.toList = false := by
      rw [Bool.eq_false_iff]
      intro hc
      exact h d hd ((isSubstr_iff d.toList url.toList).mp hc)
    simpa using hs
  simp [open_page, hb]

/-- C3 witness: the literal URL of the spec scenario,
`https://evil.example.com`, contains no allowed domain and is rejected
without navigation. -/
theorem C3_no_substring_means_rejected_witness :
    (open_page "https://evil.example.com" ⟨"about:blank"⟩).1.success = false
    ∧ (open_page "https://evil.example.com" ⟨"about:blank"⟩).1.error
        = some ("URL not in allowed domains: " ++ String.intercalate ", " allowed_domains)
    ∧ (open_page "https://evil.example.com" ⟨"about:blank"⟩).2 = ⟨"about:blank"⟩ :=
  C3_no_substring_means_rejected "https://evil.example.com" ⟨"about:blank"⟩ (by decide)

/-- C4: faults inside tool handlers are recovered as data, at two
boundaries.  First, a page interaction that raises (timeout or any other
exception) inside `click_element` yields an error-status result dict,
never an escaping exception.  Second, the ToolNode dispatcher returns
one tool message per request in request order; a handler run that raises
is converted into an error tool message for the same call id, fed back
into the message log.  Third, after the tools node the graph proceeds to
the agent node, so a failed tool never aborts the turn by itself. -/
theorem C4_handler_faults_become_error_results :
    (∀ (sel : String) (t : Int) (e : PwExn),
        (click_element sel t (Except.error e)).success = false
        ∧ (click_element sel t (Except.error e)).error.isSome = true)
    ∧ (∀ (reqs : List ToolCallReq) (outcomes : String → Except String String),
        (toolNode reqs outcomes).length = reqs.length
        ∧ ∀ r ∈ reqs, ∀ m, outcomes r.id = Except.error m →
            ({ toolCallId := r.id,
               content := "Error: " ++ m ++ " Please fix your mistakes.",
               isError := true } : ToolMessage) ∈ toolNode reqs outcomes)
    ∧ (∀ tcs : List String, nextNode Node.tools tcs = some Node.agent) := by
  refine ⟨?_, ?_, fun _ => rfl⟩
  · intro sel t e
    cases e <;> exact ⟨rfl, rfl⟩
  · intro reqs outcomes
    refine ⟨List.length_map _ _, ?_⟩
    intro r hr m hm
    rw [toolNode, List.mem_map]
    exact ⟨r, hr, by rw [hm]; rfl⟩

/-- C4 witness: a click handler whose page interaction raises, and a
dispatch of one request whose handler raises. -/
theorem C4_handler_faults_witness :
    (click_element "button.save" 30000 (Except.error (PwExn.other "boom"))).success = false
    ∧ ({ toolCallId := "c1",
         content := "Error: boom Please fix your mistakes.",
         isError := true } : ToolMessage)
        ∈ toolNode [⟨"c1", "click_element"⟩] (fun _ => Except.error "boom")
    ∧ nextNode Node.tools ["click_element"] = some Node.agent := by
  refine ⟨(C4_handler_faults_become_error_results.1 "button.save" 30000 (PwExn.other "boom")).1,
    ?_, C4_handler_faults_become_error_results.2.2 ["click_element"]⟩
  exact (C4_handler_faults_become_error_results.2.1 [⟨"c1", "click_element"⟩]
    (fun _ => Except.error "boom")).2 ⟨"c1", "click_element"⟩ (List.mem_singleton.mpr rfl)
    "boom" rfl

/-- C5: when the context fetch raises, the turn does not fail: the node
substitutes empty roster and player data, reports the "Error loading
context" status - which `chat_stream` surfaces as a (non-terminal)
status event, the warning of the spec - and the graph proceeds along its
unconditional edge to the agent node, so the model is invoked as
usual. -/
theorem C5_context_fetch_failure_nonfatal (rosterId : Int) (emsg : String) :
    (fetch_context_node rosterId (Except.error emsg)).roster_data = none
    ∧ (fetch_context_node rosterId (Except.error emsg)).players_data = none
    ∧ statusEventsOf (ctxNodeUpdate (fetch_context_node rosterId (Except.error emsg)))
        = [⟨EventType.status, "Error loading context"⟩]
    ∧ EventType.status.isTerminal = false
    ∧ (∀ tcs : List String, nextNode Node.fetch_context tcs = some Node.agent) :=
  ⟨rfl, rfl, rfl, rfl, fun _ => rfl⟩

/-- Merging a message already present (under unique ids) leaves the log
unchanged. -/
theorem addOne_of_mem (acc : List BMsg) (hnd : (acc.map (fun m => m.id)).Nodup)
    (m : BMsg) (hm : m ∈ acc) : addOne acc m = acc := by
  have hany : (acc.any (fun x => x.id = m.id)) = true := by
    rw [List.any_eq_true]
    exact ⟨m, hm, by simp⟩
  have hpt : ∀ x ∈ acc, (if x.id = m.id then m else x) = x := by
    intro x hx
    by_cases hxy : x.id = m.id
    · rw [if_pos hxy]
      exact (List.inj_on_of_nodup_map hnd hx hm hxy).symm
    · rw [if_neg hxy]
  simp only [addOne, hany, if_true]
  rw [List.map_congr_left hpt, List.map_id']

/-- Re-submitting any batch of already-present messages (under unique
ids) leaves the log unchanged. -/
theorem foldl_addOne_mems (acc : List BMsg) (hnd : (acc.map (fun m => m.id)).Nodup) :
    ∀ rs : List BMsg, (∀ m ∈ rs, m ∈ acc) → rs.foldl addOne acc = acc := by
  intro rs
  induction rs with
  | nil => intro _; rfl
  | cons r rest ih =>
      intro hsub
      rw [List.foldl_cons, addOne_of_mem acc hnd r (hsub r (by simp))]
      exact ih (fun m hm => hsub m (by simp [hm]))

/-- Under unique ids, each message occurs exactly once by id. -/
theorem countP_id_eq_one (m : BMsg) :
    ∀ l : List BMsg, (l.map (fun x => x.id)).Nodup → m ∈ l →
      l.countP (fun x => x.id = m.id) = 1 := by
  intro l
  induction l with
  | nil => intro _ hm; cases hm
  | cons a rest ih =>
      intro hnd hm
      rw [List.map_cons, List.nodup_cons] at hnd
      rw [List.countP_cons]
      rcases List.mem_cons.mp hm with rfl | hm2
      · have h0 : rest.countP (fun x => x.id = m.id) = 0 := by
          rw [List.countP_eq_zero]
          intro x hx
          simp only [decide_eq_true_eq]
          intro hxe
          exact hnd.1 (hxe ▸ List.mem_map_of_mem _ hx)
        simp [h0]
      · have hne : ¬ (a.id = m.id) := by
          intro he
          exact hnd.1 (he ▸ List.mem_map_of_mem _ hm2)
        rw [ih hnd.2 hm2]
        simp [hne]

/-- C6: with a checkpoint holding the thread's N messages (unique ids)
and a fresh id for the new user message, resuming appends exactly one
user message to the loaded log - the add_messages reducer maps each
re-submitted message onto its existing entry instead of duplicating it -
and with no checkpoint a fresh state holding just the user message is
built; each of the N loaded messages occurs exactly once afterwards. -/
theorem C6_resume_appends_exactly_once (msgs : List BMsg) (userMsg : BMsg)
    (hnd : (msgs.map (fun m => m.id)).Nodup)
    (hfresh : userMsg.id ∉ msgs.map (fun m => m.id)) :
    channelAfterInput (some msgs) userMsg = msgs ++ [userMsg]
    ∧ channelAfterInput none userMsg = [userMsg]
    ∧ ∀ m ∈ msgs,
        (channelAfterInput (some msgs) userMsg).countP (fun x => x.id = m.id) = 1 := by
  have hany : (msgs.any (fun x => x.id = userMsg.id)) = false := by
    rw [List.any_eq_false]
    intro x hx
    simp only [decide_eq_true_eq]
    intro hxe
    exact hfresh (hxe ▸ List.mem_map_of_mem _ hx)
  have hmain : channelAfterInput (some msgs) userMsg = msgs ++ [userMsg] := by
    show add_messages msgs (msgs ++ [userMsg]) = msgs ++ [userMsg]
    rw [add_messages, List.foldl_append]
    rw [foldl_addOne_mems msgs hnd msgs (fun m hm => hm)]
    show addOne msgs userMsg = msgs ++ [userMsg]
    simp [addOne, hany]
  refine ⟨hmain, rfl, ?_⟩
  intro m hm
  rw [hmain, List.countP_append, countP_id_eq_one m msgs hnd hm]
  have hne : ¬ (userMsg.id = m.id) := by
    intro he
    exact hfresh (he ▸ List.mem_map_of_mem _ hm)
  simp [List.countP_cons, hne]

/-- C6 witness: a two-message checkpoint resumed with a third, fresh
user message. -/
theorem C6_resume_witness :
    channelAfterInput (some [⟨"m1", Role.user, "hi"⟩, ⟨"m2", Role.assistant, "hello"⟩])
        ⟨"m3", Role.user, "lineup"⟩
      = [⟨"m1", Role.user, "hi"⟩, ⟨"m2", Role.assistant, "hello"⟩] ++ [⟨"m3", Role.user, "lineup"⟩]
    ∧ channelAfterInput none ⟨"m3", Role.user, "lineup"⟩ = [⟨"m3", Role.user, "lineup"⟩]
    ∧ ∀ m ∈ [(⟨"m1", Role.user, "hi"⟩ : BMsg), ⟨"m2", Role.assistant, "hello"⟩],
        (channelAfterInput (some [⟨"m1", Role.user, "hi"⟩, ⟨"m2", Role.assistant, "hello"⟩])
            ⟨"m3", Role.user, "lineup"⟩).countP (fun x => x.id = m.id) = 1 :=
  C6_resume_appends_exactly_once
    [⟨"m1", Role.user, "hi"⟩, ⟨"m2", Role.assistant, "hello"⟩]
    ⟨"m3", Role.user, "lineup"⟩ (by decide) (by decide)

/-- C8 (counterexample to the claim as stated): the schedule in which
both dispatched tool calls borrow session `s1` before either releases it
is a valid execution of the embedded manager semantics - `get_session`
imposes no mutual exclusion - and in it the two borrow/release cycles
overlap in time. -/
theorem C8_overlapping_cycles_reachable :
    isSchedule overlapTrace = true
    ∧ (execTrace "s1" 5 mgr0 overlapTrace).isSome = true
    ∧ cyclesOverlap overlapTrace = true := by
  decide

/-- C8 (amended): the pool provides no per-session mutex.  The manager
owns a single lock (used by start/stop); `get_session` - the borrow
operation every tool call goes through - neither changes nor consults
that lock (its success is independent of the lock being held), so
in-session operations of two simultaneously dispatched tool calls on the
same session_id are not serialized: a schedule in which the two
borrow/release cycles overlap is a valid execution. -/
theorem C8_no_per_session_mutex :
    (∀ (st : ManagerState) (sid : String) (now : Int),
        ((get_session st sid now).2).lockHeld = st.lockHeld)
    ∧ (∀ (st : ManagerState) (sid : String) (now : Int) (b : Bool),
        (get_session { st with lockHeld := b } sid now).1 = (get_session st sid now).1)
    ∧ (∃ tr : List TStep, isSchedule tr = true
        ∧ (execTrace "s1" 5 mgr0 tr).isSome = true ∧ cyclesOverlap tr = true) := by
  refine ⟨?_, ?_, ⟨overlapTrace, by decide, by decide, by decide⟩⟩
  · intro st sid now
    rcases hfind : st.sessions.find? (fun s => s.session_id = sid) with _ | s
    · simp [get_session, hfind]
    · by_cases hact : s.isActive = true
      · simp [get_session, hfind, hact]
      · simp [get_session, hfind, hact]
  · intro st sid now b
    rcases hfind : st.sessions.find? (fun s => s.session_id = sid) with _ | s
    · simp [get_session, hfind]
    · by_cases hact : s.isActive = true
      · simp [get_session, hfind, hact]
      · simp [get_session, hfind, hact]

/-- Closing a list of session ids one by one removes exactly the
sessions whose id is listed. -/
theorem foldl_close_session (ids : List String) :
    ∀ l : List MSession,
      ids.foldl close_session l = l.filter (fun s => ¬ s.session_id ∈ ids) := by
  induction ids with
  | nil =>
      intro l
      rw [List.foldl_nil, eq_comm]
      rw [List.filter_eq_self]
      intro a _
      simp
  | cons i is ih =>
      intro l
      rw [List.foldl_cons, ih (close_session l i), close_session, List.filter_filter]
      apply List.filter_congr
      intro s _
      by_cases h1 : s.session_id = i <;> by_cases h2 : s.session_id ∈ is <;>
        simp [h1, h2]

/-- For a member of a pool with unique ids, occurring among the expired
ids is the same as being expired. -/
theorem mem_expiredIds_iff (sessions : List MSession) (now timeout : Int)
    (hnd : (sessions.map (fun s => s.session_id)).Nodup)
    (s : MSession) (hs : s ∈ sessions) :
    (s.session_id ∈ (sessions.filter (fun x => is_expired x now timeout)).map
        (fun x => x.session_id))
      ↔ is_expired s now timeout = true := by
  constructor
  · intro hc
    rw [List.mem_map] at hc
    obtain ⟨t, ht, hid⟩ := hc
    have htm := (List.mem_filter.mp ht).1
    have hte := (List.mem_filter.mp ht).2
    have : t = s := List.inj_on_of_nodup_map hnd htm hs hid
    exact this ▸ hte
  · intro he
    exact List.mem_map_of_mem _ (List.mem_filter.mpr ⟨hs, he⟩)

/-- C9: the sweep closes and removes from the pool exactly the sessions
whose last activity lies more than the timeout in the past, leaves every
other session in the pool (in order, unchanged), and returns the number
of sessions it closed. -/
theorem C9_sweep_closes_exactly_expired (sessions : List MSession) (now timeout : Int)
    (hnd : (sessions.map (fun s => s.session_id)).Nodup) :
    (cleanup_expired_sessions sessions now timeout).1
        = sessions.filter (fun s => ¬ now - s.lastActivity > timeout)
    ∧ (∀ s ∈ sessions,
        s ∈ (cleanup_expired_sessions sessions now timeout).1
          ↔ ¬ now - s.lastActivity > timeout)
    ∧ (cleanup_expired_sessions sessions now timeout).2
        = (sessions.filter (fun s => now - s.lastActivity > timeout)).length := by
  have h1 : (cleanup_expired_sessions sessions now timeout).1
      = sessions.filter (fun s => ¬ now - s.lastActivity > timeout) := by
    show ((sessions.filter (fun s => is_expired s now timeout)).map
        (fun s => s.session_id)).foldl close_session sessions = _
    rw [foldl_close_session]
    apply List.filter_congr
    intro s hs
    have := mem_expiredIds_iff sessions now timeout hnd s hs
    by_cases he : is_expired s now timeout = true
    · have hmem := this.mpr he
      have he2 : (now - s.lastActivity > timeout) := by
        simpa [is_expired] using he
      simp [hmem, he2]
    · have hmem : ¬ (s.session_id ∈ (sessions.filter (fun x => is_expired x now timeout)).map
          (fun x => x.session_id)) := fun hc => he (this.mp hc)
      have he2 : ¬ (now - s.lastActivity > timeout) := by
        simpa [is_expired] using he
      simp [hmem, he2]
  refine ⟨h1, ?_, ?_⟩
  · intro s hs
    rw [h1, List.mem_filter]
    constructor
    · intro hp
      simpa using hp.2
    · intro hp
      exact ⟨hs, by simpa using hp⟩
  · show ((sessions.filter (fun s => is_expired s now timeout)).map
        (fun s => s.session_id)).length = _
    rw [List.length_map]
    rfl

/-- C9 witness: a pool of two sessions, one idle past the timeout. -/
theorem C9_sweep_witness :
    (cleanup_expired_sessions [⟨"a", 0, true⟩, ⟨"b", 90, true⟩] 100 30).1
        = [(⟨"a", 0, true⟩ : MSession), ⟨"b", 90, true⟩].filter
            (fun s => ¬ (100 : Int) - s.lastActivity > 30)
    ∧ (∀ s ∈ [(⟨"a", 0, true⟩ : MSession), ⟨"b", 90, true⟩],
        s ∈ (cleanup_expired_sessions [⟨"a", 0, true⟩, ⟨"b", 90, true⟩] 100 30).1
          ↔ ¬ (100 : Int) - s.lastActivity > 30)
    ∧ (cleanup_expired_sessions [⟨"a", 0, true⟩, ⟨"b", 90, true⟩] 100 30).2
        = ([(⟨"a", 0, true⟩ : MSession), ⟨"b", 90, true⟩].filter
            (fun s => (100 : Int) - s.lastActivity > 30)).length :=
  C9_sweep_closes_exactly_expired [⟨"a", 0, true⟩, ⟨"b", 90, true⟩] 100 30 (by decide)

/-- C10: the browser tool registry is not well-defined: the name
`sleeper_login` appears in the `BROWSER_TOOLS` list and in the browser
package's import/export list, but no handler of that name is defined in
browser_tools.py (the handler is named `open_sleeper_browser`), so
evaluating the registry - and hence building `ALL_TOOLS` - fails with a
NameError; `sleeper_login` is the only unbound registry name. -/
theorem C10_sleeper_login_unbound :
    "sleeper_login" ∈ BROWSER_TOOLS_names
    ∧ "sleeper_login" ∈ browser_init_all
    ∧ ¬ "sleeper_login" ∈ browser_tools_defined
    ∧ BROWSER_TOOLS_names.filter (fun n => ¬ n ∈ browser_tools_defined)
        = ["sleeper_login"] := by
  decide

end FFAgent



